import Mathlib

/-!
# RestrictedEnum: `restrictedenum<t>` and `singleflagenum<t>`

Shallow embedding of the two class templates of `restrictedenum.hpp` and
`singleflagenum.hpp`, and the properties of their `get` / `set` member functions.

Each class has one private data member `t eflag` and two public member functions.
An object is a record with the field `eflag`; a member function is a function of the
object (`self`).  `get` is not declared `const` in the source, so it is embedded in
state-passing form: it yields the returned value together with the object after the call.
`set` returns `void`, so it yields the object after the call only.

Modelling choices:
* neither class declares a constructor, so a new object holds whatever its storage held; an
  object that was never written is a record with an arbitrary `eflag`;
* `return eflag;` and `eflag = flag;` copy a value of `t`; `t` is a Lean type, whose values are
  copied faithfully (a C++ type with a user-defined copy that alters the value is not covered);
* both classes have `eflag` as their only member, none of it `static`, so the calls on one
  object read and write that object only.
-/

universe u

namespace RestrictedEnum

/-! ## restrictedenum.hpp -/

/-- Class template `restrictedenum<t>`: the single data member `t eflag`. -/
structure restrictedenum (t : Type u) where
  /-- The private member `t eflag`. -/
  eflag : t

/-- Member `t get () { return eflag; }`: the returned value and the object after the call. -/
def restrictedenum.get {t : Type u} (self : restrictedenum t) : t × restrictedenum t :=
  (self.eflag, self)

/-- Member `void set ( t flag ) { eflag = flag; }`: the object after the call. -/
def restrictedenum.set {t : Type u} (self : restrictedenum t) (flag : t) : restrictedenum t :=
  { self with eflag := flag }

/-! ## singleflagenum.hpp -/

/-- Class template `singleflagenum<t>`: the single data member `t eflag`. -/
structure singleflagenum (t : Type u) where
  /-- The private member `t eflag`. -/
  eflag : t

/-- Member `t get () { return eflag; }`: the returned value and the object after the call. -/
def singleflagenum.get {t : Type u} (self : singleflagenum t) : t × singleflagenum t :=
  (self.eflag, self)

/-- Member `void set ( t flag ) { eflag = flag; }`: the object after the call. -/
def singleflagenum.set {t : Type u} (self : singleflagenum t) (flag : t) : singleflagenum t :=
  { self with eflag := flag }

/-! ## Client programs: sequences of calls on one object -/

/-- One call of a public member function, as a client writes it. -/
inductive Op (t : Type u) where
  /-- The call `h.get()`. -/
  | get : Op t
  /-- The call `h.set(flag)`. -/
  | set (flag : t) : Op t

/-- Runs a sequence of calls on a `restrictedenum<t>` object, in program order: the values
returned by the `get` calls, in order, and the object after the last call. -/
def restrictedenum.run {t : Type u} : List (Op t) → restrictedenum t → List t × restrictedenum t
  | [], h => ([], h)
  | Op.get :: ops, h =>
      let r := h.get
      let rest := restrictedenum.run ops r.2
      (r.1 :: rest.1, rest.2)
  | Op.set flag :: ops, h => restrictedenum.run ops (h.set flag)

/-- Runs a sequence of calls on a `singleflagenum<t>` object, in program order: the values
returned by the `get` calls, in order, and the object after the last call. -/
def singleflagenum.run {t : Type u} : List (Op t) → singleflagenum t → List t × singleflagenum t
  | [], h => ([], h)
  | Op.get :: ops, h =>
      let r := h.get
      let rest := singleflagenum.run ops r.2
      (r.1 :: rest.1, rest.2)
  | Op.set flag :: ops, h => singleflagenum.run ops (h.set flag)

/-- The argument of the most recent `set` call of a sequence, if the sequence has one
(the specification's "last written" value). -/
def lastSet {t : Type u} : List (Op t) → Option t
  | [] => none
  | Op.get :: ops => lastSet ops
  | Op.set flag :: ops =>
      match lastSet ops with
      | some w => some w
      | none => some flag

/-- The enumeration of the specification's concrete scenario. -/
inductive Color where
  | RED
  | GREEN
  | BLUE
  deriving DecidableEq, Repr

/-- The number of `get` calls of a sequence. -/
def countGets {t : Type u} : List (Op t) → Nat
  | [] => 0
  | Op.get :: ops => countGets ops + 1
  | Op.set _ :: ops => countGets ops

/-- The sequence `b` is the sequence `a` with `get` calls inserted, any number of them at any
places. -/
inductive InsertGets {t : Type u} : List (Op t) → List (Op t) → Prop where
  /-- Nothing inserted into the empty sequence. -/
  | done : InsertGets [] []
  /-- A call of the original sequence is kept. -/
  | keep (o : Op t) {a b : List (Op t)} : InsertGets a b → InsertGets (o :: a) (o :: b)
  /-- A `get` call is inserted. -/
  | insert {a b : List (Op t)} : InsertGets a b → InsertGets a (Op.get :: b)

/-- Renames the argument of a call along `f : T → U`. -/
def Op.map {T U : Type u} (f : T → U) : Op T → Op U
  | Op.get => Op.get
  | Op.set flag => Op.set (f flag)

/-! ## Client programs: several objects

Distinct objects occupy distinct storage; a program state with several `restrictedenum<t>`
(or `singleflagenum<t>`) objects maps the address of each object to the object.  A member
function called on the object at address `i` receives that object as `self`, and the object
after the call is written back at `i`. -/

/-- The call `h.set(flag)` on the `restrictedenum<t>` object `h` at address `i`. -/
def restrictedenum.setAt {t : Type u} (σ : Nat → restrictedenum t) (i : Nat) (flag : t) :
    Nat → restrictedenum t :=
  Function.update σ i ((σ i).set flag)

/-- The call `h.get()` on the `restrictedenum<t>` object `h` at address `i`: the returned value
and the program state after the call. -/
def restrictedenum.getAt {t : Type u} (σ : Nat → restrictedenum t) (i : Nat) :
    t × (Nat → restrictedenum t) :=
  ((σ i).get.1, Function.update σ i (σ i).get.2)

/-- The call `h.set(flag)` on the `singleflagenum<t>` object `h` at address `i`. -/
def singleflagenum.setAt {t : Type u} (σ : Nat → singleflagenum t) (i : Nat) (flag : t) :
    Nat → singleflagenum t :=
  Function.update σ i ((σ i).set flag)

/-- The call `h.get()` on the `singleflagenum<t>` object `h` at address `i`: the returned value
and the program state after the call. -/
def singleflagenum.getAt {t : Type u} (σ : Nat → singleflagenum t) (i : Nat) :
    t × (Nat → singleflagenum t) :=
  ((σ i).get.1, Function.update σ i (σ i).get.2)

/-- A second enumeration, for a single on/off flag. -/
inductive Switch where
  | OFF
  | ON
  deriving DecidableEq, Repr

/-- The declared values of `enum Color { RED, GREEN, BLUE }` in its underlying integer type:
`0`, `1` and `2`. -/
def Color.legal (n : Int) : Bool :=
  decide (0 ≤ n ∧ n ≤ 2)

/-- The value of a `Color` in its underlying integer type. -/
def Color.toInt : Color → Int
  | Color.RED => 0
  | Color.GREEN => 1
  | Color.BLUE => 2

/-- The set-then-get, idempotence, overwrite and independence properties of the specification,
for `restrictedenum<T>` at one type `T`. -/
def restrictedenum.Contract (T : Type u) : Prop :=
  (∀ (h : restrictedenum T) (v : T), (h.set v).get.1 = v) ∧
  (∀ (h : restrictedenum T) (v : T),
    ((h.set v).set v).get.1 = (h.set v).get.1 ∧ ((h.set v).set v).get.1 = v) ∧
  (∀ (h : restrictedenum T) (v1 v2 : T), v1 ≠ v2 →
    ((h.set v1).set v2).get.1 = v2 ∧ ((h.set v1).set v2).get.1 ≠ v1) ∧
  (∀ (σ : Nat → restrictedenum T) (i j : Nat) (v1 v2 : T), i ≠ j → v1 ≠ v2 →
    (restrictedenum.getAt (restrictedenum.setAt (restrictedenum.setAt σ i v1) j v2) i).1
      ≠ (restrictedenum.getAt (restrictedenum.setAt (restrictedenum.setAt σ i v1) j v2) j).1 ∧
    restrictedenum.setAt σ i v1 j = σ j)

/-- The set-then-get, idempotence, overwrite and independence properties of the specification,
for `singleflagenum<T>` at one type `T`. -/
def singleflagenum.Contract (T : Type u) : Prop :=
  (∀ (h : singleflagenum T) (v : T), (h.set v).get.1 = v) ∧
  (∀ (h : singleflagenum T) (v : T),
    ((h.set v).set v).get.1 = (h.set v).get.1 ∧ ((h.set v).set v).get.1 = v) ∧
  (∀ (h : singleflagenum T) (v1 v2 : T), v1 ≠ v2 →
    ((h.set v1).set v2).get.1 = v2 ∧ ((h.set v1).set v2).get.1 ≠ v1) ∧
  (∀ (σ : Nat → singleflagenum T) (i j : Nat) (v1 v2 : T), i ≠ j → v1 ≠ v2 →
    (singleflagenum.getAt (singleflagenum.setAt (singleflagenum.setAt σ i v1) j v2) i).1
      ≠ (singleflagenum.getAt (singleflagenum.setAt (singleflagenum.setAt σ i v1) j v2) j).1 ∧
    singleflagenum.setAt σ i v1 j = σ j)

/-! ## Basic facts about runs -/

theorem restrictedenum_run_final_eflag {t : Type u} (ops : List (Op t)) :
    ∀ h : restrictedenum t, (restrictedenum.run ops h).2.eflag = (lastSet ops).getD h.eflag := by
  induction ops with
  | nil => intro h; rfl
  | cons o ops ih =>
    intro h
    cases o with
    | get => simpa [restrictedenum.run, restrictedenum.get, lastSet] using ih h
    | set flag =>
      have hs := ih (h.set flag)
      cases hl : lastSet ops <;> simp [restrictedenum.run, lastSet, hl, restrictedenum.set] at hs ⊢
        <;> exact hs

theorem singleflagenum_run_final_eflag {t : Type u} (ops : List (Op t)) :
    ∀ h : singleflagenum t, (singleflagenum.run ops h).2.eflag = (lastSet ops).getD h.eflag := by
  induction ops with
  | nil => intro h; rfl
  | cons o ops ih =>
    intro h
    cases o with
    | get => simpa [singleflagenum.run, singleflagenum.get, lastSet] using ih h
    | set flag =>
      have hs := ih (h.set flag)
      cases hl : lastSet ops <;> simp [singleflagenum.run, lastSet, hl, singleflagenum.set] at hs ⊢
        <;> exact hs

theorem restrictedenum_run_results_length {t : Type u} (ops : List (Op t)) :
    ∀ h : restrictedenum t, (restrictedenum.run ops h).1.length = countGets ops := by
  induction ops with
  | nil => intro h; rfl
  | cons o ops ih =>
    intro h
    cases o with
    | get => simp [restrictedenum.run, countGets, ih]
    | set flag => simp [restrictedenum.run, countGets, ih]

theorem singleflagenum_run_results_length {t : Type u} (ops : List (Op t)) :
    ∀ h : singleflagenum t, (singleflagenum.run ops h).1.length = countGets ops := by
  induction ops with
  | nil => intro h; rfl
  | cons o ops ih =>
    intro h
    cases o with
    | get => simp [singleflagenum.run, countGets, ih]
    | set flag => simp [singleflagenum.run, countGets, ih]

theorem restrictedenum_run_insertGets_state {t : Type u} {a b : List (Op t)}
    (hab : InsertGets a b) :
    ∀ h : restrictedenum t, (restrictedenum.run b h).2 = (restrictedenum.run a h).2 := by
  induction hab with
  | done => intro h; rfl
  | keep o _ ih =>
    intro h
    cases o with
    | get => simpa [restrictedenum.run] using ih h.get.2
    | set flag => simpa [restrictedenum.run] using ih (h.set flag)
  | insert _ ih =>
    intro h
    simpa [restrictedenum.run, restrictedenum.get] using ih h

theorem singleflagenum_run_insertGets_state {t : Type u} {a b : List (Op t)}
    (hab : InsertGets a b) :
    ∀ h : singleflagenum t, (singleflagenum.run b h).2 = (singleflagenum.run a h).2 := by
  induction hab with
  | done => intro h; rfl
  | keep o _ ih =>
    intro h
    cases o with
    | get => simpa [singleflagenum.run] using ih h.get.2
    | set flag => simpa [singleflagenum.run] using ih (h.set flag)
  | insert _ ih =>
    intro h
    simpa [singleflagenum.run, singleflagenum.get] using ih h

theorem run_eq_of_eflag_eq {t : Type u} (ops : List (Op t)) :
    ∀ (h1 : restrictedenum t) (h2 : singleflagenum t), h1.eflag = h2.eflag →
      (restrictedenum.run ops h1).1 = (singleflagenum.run ops h2).1 ∧
      (restrictedenum.run ops h1).2.eflag = (singleflagenum.run ops h2).2.eflag := by
  induction ops with
  | nil => intro h1 h2 he; exact ⟨rfl, he⟩
  | cons o ops ih =>
    intro h1 h2 he
    cases o with
    | get =>
      have hs := ih h1 h2 he
      simp [restrictedenum.run, singleflagenum.run, restrictedenum.get, singleflagenum.get,
        he, hs.1, hs.2]
    | set flag =>
      have hs := ih (h1.set flag) (h2.set flag) rfl
      simp [restrictedenum.run, singleflagenum.run, hs.1, hs.2]

theorem restrictedenum_run_map {T U : Type u} (f : T → U) (ops : List (Op T)) :
    ∀ s : T, restrictedenum.run (ops.map (Op.map f)) (restrictedenum.mk (f s))
      = ((restrictedenum.run ops (restrictedenum.mk s)).1.map f,
         restrictedenum.mk (f (restrictedenum.run ops (restrictedenum.mk s)).2.eflag)) := by
  induction ops with
  | nil => intro s; rfl
  | cons o ops ih =>
    intro s
    cases o with
    | get => simp [restrictedenum.run, restrictedenum.get, Op.map, ih s]
    | set flag => simpa [restrictedenum.run, restrictedenum.set, Op.map] using ih flag

theorem singleflagenum_run_map {T U : Type u} (f : T → U) (ops : List (Op T)) :
    ∀ s : T, singleflagenum.run (ops.map (Op.map f)) (singleflagenum.mk (f s))
      = ((singleflagenum.run ops (singleflagenum.mk s)).1.map f,
         singleflagenum.mk (f (singleflagenum.run ops (singleflagenum.mk s)).2.eflag)) := by
  induction ops with
  | nil => intro s; rfl
  | cons o ops ih =>
    intro s
    cases o with
    | get => simp [singleflagenum.run, singleflagenum.get, Op.map, ih s]
    | set flag => simpa [singleflagenum.run, singleflagenum.set, Op.map] using ih flag

theorem restrictedenum_contract (T : Type u) : restrictedenum.Contract T := by
  refine ⟨fun _ _ => rfl, fun _ _ => ⟨rfl, rfl⟩, fun _ _ _ hv => ⟨rfl, fun e => hv e.symm⟩,
    fun σ i j v1 v2 hij hv => ?_⟩
  have hji : j ≠ i := fun e => hij e.symm
  simp [restrictedenum.getAt, restrictedenum.setAt, restrictedenum.get, restrictedenum.set,
    Function.update, hij, hji, hv]

theorem singleflagenum_contract (T : Type u) : singleflagenum.Contract T := by
  refine ⟨fun _ _ => rfl, fun _ _ => ⟨rfl, rfl⟩, fun _ _ _ hv => ⟨rfl, fun e => hv e.symm⟩,
    fun σ i j v1 v2 hij hv => ?_⟩
  have hji : j ≠ i := fun e => hij e.symm
  simp [singleflagenum.getAt, singleflagenum.setAt, singleflagenum.get, singleflagenum.set,
    Function.update, hij, hji, hv]

theorem restrictedenum_ext_eflag {t : Type u} :
    ∀ h1 h2 : restrictedenum t, h1.eflag = h2.eflag → h1 = h2
  | ⟨_⟩, ⟨_⟩, rfl => rfl

theorem singleflagenum_ext_eflag {t : Type u} :
    ∀ h1 h2 : singleflagenum t, h1.eflag = h2.eflag → h1 = h2
  | ⟨_⟩, ⟨_⟩, rfl => rfl

/-! ## Set-then-get, overwrite, last write wins -/

/-- C1: for every type `t`, every container (of either class) in any prior state and every
value `v`, `set(v)` followed by `get()` returns `v`. -/
theorem set_then_get_returns_value {t : Type u} (v : t) :
    (∀ h : restrictedenum t, (h.set v).get.1 = v) ∧
    (∀ h : singleflagenum t, (h.set v).get.1 = v) :=
  ⟨fun _ => rfl, fun _ => rfl⟩

/-- C2: for every container (of either class) and all values `v1 ≠ v2`, `set(v1)` followed by
`set(v2)` makes `get()` return `v2` and not `v1`; and in the scenario over `{RED, GREEN, BLUE}`,
`set(GREEN); get(); set(BLUE); get()` returns `GREEN` and then `BLUE`, and a further `get()`
does not return `GREEN`. -/
theorem overwrite_returns_latest :
    (∀ (t : Type u) (v1 v2 : t), v1 ≠ v2 →
      (∀ h : restrictedenum t,
        ((h.set v1).set v2).get.1 = v2 ∧ ((h.set v1).set v2).get.1 ≠ v1) ∧
      (∀ h : singleflagenum t,
        ((h.set v1).set v2).get.1 = v2 ∧ ((h.set v1).set v2).get.1 ≠ v1)) ∧
    (∀ h : restrictedenum Color,
      (restrictedenum.run [Op.set Color.GREEN, Op.get, Op.set Color.BLUE, Op.get] h).1
        = [Color.GREEN, Color.BLUE] ∧
      (restrictedenum.run [Op.set Color.GREEN, Op.get, Op.set Color.BLUE, Op.get] h).2.get.1
        ≠ Color.GREEN) ∧
    (∀ h : singleflagenum Color,
      (singleflagenum.run [Op.set Color.GREEN, Op.get, Op.set Color.BLUE, Op.get] h).1
        = [Color.GREEN, Color.BLUE] ∧
      (singleflagenum.run [Op.set Color.GREEN, Op.get, Op.set Color.BLUE, Op.get] h).2.get.1
        ≠ Color.GREEN) := by
  refine ⟨fun t v1 v2 hne => ⟨fun h => ⟨rfl, ?_⟩, fun h => ⟨rfl, ?_⟩⟩, fun h => ⟨rfl, ?_⟩,
    fun h => ⟨rfl, ?_⟩⟩
  · exact fun heq => hne heq.symm
  · exact fun heq => hne heq.symm
  · simp [restrictedenum.run, restrictedenum.get, restrictedenum.set]
  · simp [singleflagenum.run, singleflagenum.get, singleflagenum.set]

/-- Witness of C2 at `t = Int`, `v1 = 1`, `v2 = 2`, on containers holding `0`. -/
theorem overwrite_returns_latest_witness :
    (1 : Int) ≠ 2 ∧
    ((((restrictedenum.mk (0 : Int)).set 1).set 2).get.1 = 2 ∧
      (((restrictedenum.mk (0 : Int)).set 1).set 2).get.1 ≠ 1) ∧
    ((((singleflagenum.mk (0 : Int)).set 1).set 2).get.1 = 2 ∧
      (((singleflagenum.mk (0 : Int)).set 1).set 2).get.1 ≠ 1) :=
  ⟨by decide,
   (overwrite_returns_latest.1 Int 1 2 (by decide)).1 (restrictedenum.mk 0),
   (overwrite_returns_latest.1 Int 1 2 (by decide)).2 (singleflagenum.mk 0)⟩

/-- C3: for every initial stored value `s` and every finite sequence of `get` and `set` calls on a
container (of either class), a final `get()` returns the argument of the most recent `set` of the
sequence, or `s` if the sequence has no `set`; every `get` call of the sequence returned a value
(no call signals an error). -/
theorem last_write_wins {t : Type u} (s : t) (ops : List (Op t)) :
    ((restrictedenum.run ops (restrictedenum.mk s)).2.get.1 = (lastSet ops).getD s ∧
      (restrictedenum.run ops (restrictedenum.mk s)).1.length = countGets ops) ∧
    ((singleflagenum.run ops (singleflagenum.mk s)).2.get.1 = (lastSet ops).getD s ∧
      (singleflagenum.run ops (singleflagenum.mk s)).1.length = countGets ops) :=
  ⟨⟨restrictedenum_run_final_eflag ops _, restrictedenum_run_results_length ops _⟩,
   ⟨singleflagenum_run_final_eflag ops _, singleflagenum_run_results_length ops _⟩⟩

/-! ## Frame properties -/

/-- C4: `get` is purely observational, for both classes: the object after `get()` is the object
before it, two consecutive `get()` calls return equal values, and when a sequence of calls `b` is
a sequence `a` with `get` calls inserted anywhere, the object after `b` is the object after `a`
and every continuation `post` returns the same values after `b` as after `a`. -/
theorem get_is_observational {t : Type u} :
    ((∀ h : restrictedenum t, h.get.2 = h ∧ h.get.2.get.1 = h.get.1) ∧
      (∀ (a b : List (Op t)), InsertGets a b → ∀ (h : restrictedenum t) (post : List (Op t)),
        (restrictedenum.run b h).2 = (restrictedenum.run a h).2 ∧
        restrictedenum.run post (restrictedenum.run b h).2
          = restrictedenum.run post (restrictedenum.run a h).2)) ∧
    ((∀ h : singleflagenum t, h.get.2 = h ∧ h.get.2.get.1 = h.get.1) ∧
      (∀ (a b : List (Op t)), InsertGets a b → ∀ (h : singleflagenum t) (post : List (Op t)),
        (singleflagenum.run b h).2 = (singleflagenum.run a h).2 ∧
        singleflagenum.run post (singleflagenum.run b h).2
          = singleflagenum.run post (singleflagenum.run a h).2)) := by
  refine ⟨⟨fun h => ⟨rfl, rfl⟩, fun a b hab h post => ?_⟩,
    ⟨fun h => ⟨rfl, rfl⟩, fun a b hab h post => ?_⟩⟩
  · have hs := restrictedenum_run_insertGets_state hab h
    exact ⟨hs, by rw [hs]⟩
  · have hs := singleflagenum_run_insertGets_state hab h
    exact ⟨hs, by rw [hs]⟩

/-- Witness of C4: two `get` calls inserted into `set(GREEN); get(); set(BLUE)` on a container
holding `RED`, with the continuation `get()`. -/
theorem get_is_observational_witness :
    InsertGets [Op.set Color.GREEN, Op.get, Op.set Color.BLUE]
      [Op.get, Op.set Color.GREEN, Op.get, Op.get, Op.set Color.BLUE] ∧
    ((restrictedenum.run [Op.get, Op.set Color.GREEN, Op.get, Op.get, Op.set Color.BLUE]
        (restrictedenum.mk Color.RED)).2
      = (restrictedenum.run [Op.set Color.GREEN, Op.get, Op.set Color.BLUE]
        (restrictedenum.mk Color.RED)).2 ∧
     restrictedenum.run [Op.get]
        (restrictedenum.run [Op.get, Op.set Color.GREEN, Op.get, Op.get, Op.set Color.BLUE]
          (restrictedenum.mk Color.RED)).2
      = restrictedenum.run [Op.get]
        (restrictedenum.run [Op.set Color.GREEN, Op.get, Op.set Color.BLUE]
          (restrictedenum.mk Color.RED)).2) :=
  ⟨InsertGets.insert (InsertGets.keep _ (InsertGets.keep _ (InsertGets.insert
      (InsertGets.keep _ InsertGets.done)))),
   get_is_observational.1.2 _ _
    (InsertGets.insert (InsertGets.keep _ (InsertGets.keep _ (InsertGets.insert
      (InsertGets.keep _ InsertGets.done)))))
    (restrictedenum.mk Color.RED) [Op.get]⟩

/-- C5: for two distinct containers (objects at addresses `i ≠ j`, of either class) and values
`v1 ≠ v2`, after `h1.set(v1)` and `h2.set(v2)` in either order, `h1.get()` returns `v1` and
`h2.get()` returns `v2`, so the two results differ; and a `set` on one container leaves the other
container as it was. -/
theorem instances_independent {t : Type u} (i j : Nat) (v1 v2 : t) (hij : i ≠ j)
    (hv : v1 ≠ v2) :
    (∀ σ : Nat → restrictedenum t,
      ((restrictedenum.getAt (restrictedenum.setAt (restrictedenum.setAt σ i v1) j v2) i).1 = v1 ∧
       (restrictedenum.getAt (restrictedenum.setAt (restrictedenum.setAt σ i v1) j v2) j).1 = v2 ∧
       (restrictedenum.getAt (restrictedenum.setAt (restrictedenum.setAt σ i v1) j v2) i).1
        ≠ (restrictedenum.getAt (restrictedenum.setAt (restrictedenum.setAt σ i v1) j v2) j).1) ∧
      ((restrictedenum.getAt (restrictedenum.setAt (restrictedenum.setAt σ j v2) i v1) i).1 = v1 ∧
       (restrictedenum.getAt (restrictedenum.setAt (restrictedenum.setAt σ j v2) i v1) j).1 = v2 ∧
       (restrictedenum.getAt (restrictedenum.setAt (restrictedenum.setAt σ j v2) i v1) i).1
        ≠ (restrictedenum.getAt (restrictedenum.setAt (restrictedenum.setAt σ j v2) i v1) j).1) ∧
      (∀ v : t, restrictedenum.setAt σ i v j = σ j ∧ restrictedenum.setAt σ j v i = σ i)) ∧
    (∀ σ : Nat → singleflagenum t,
      ((singleflagenum.getAt (singleflagenum.setAt (singleflagenum.setAt σ i v1) j v2) i).1 = v1 ∧
       (singleflagenum.getAt (singleflagenum.setAt (singleflagenum.setAt σ i v1) j v2) j).1 = v2 ∧
       (singleflagenum.getAt (singleflagenum.setAt (singleflagenum.setAt σ i v1) j v2) i).1
        ≠ (singleflagenum.getAt (singleflagenum.setAt (singleflagenum.setAt σ i v1) j v2) j).1) ∧
      ((singleflagenum.getAt (singleflagenum.setAt (singleflagenum.setAt σ j v2) i v1) i).1 = v1 ∧
       (singleflagenum.getAt (singleflagenum.setAt (singleflagenum.setAt σ j v2) i v1) j).1 = v2 ∧
       (singleflagenum.getAt (singleflagenum.setAt (singleflagenum.setAt σ j v2) i v1) i).1
        ≠ (singleflagenum.getAt (singleflagenum.setAt (singleflagenum.setAt σ j v2) i v1) j).1) ∧
      (∀ v : t, singleflagenum.setAt σ i v j = σ j ∧ singleflagenum.setAt σ j v i = σ i)) := by
  have hji : j ≠ i := fun e => hij e.symm
  refine ⟨fun σ => ⟨?_, ?_, fun v => ?_⟩, fun σ => ⟨?_, ?_, fun v => ?_⟩⟩
  · simp [restrictedenum.getAt, restrictedenum.setAt, restrictedenum.get, restrictedenum.set,
      Function.update, hij, hji, hv]
  · simp [restrictedenum.getAt, restrictedenum.setAt, restrictedenum.get, restrictedenum.set,
      Function.update, hij, hji, hv]
  · simp [restrictedenum.setAt, Function.update, hij, hji]
  · simp [singleflagenum.getAt, singleflagenum.setAt, singleflagenum.get, singleflagenum.set,
      Function.update, hij, hji, hv]
  · simp [singleflagenum.getAt, singleflagenum.setAt, singleflagenum.get, singleflagenum.set,
      Function.update, hij, hji, hv]
  · simp [singleflagenum.setAt, Function.update, hij, hji]

/-- Witness of C5: the objects at addresses `0` and `1` of a program state whose objects all hold
`RED`, with `v1 = GREEN` and `v2 = BLUE`. -/
theorem instances_independent_witness :
    (0 : Nat) ≠ 1 ∧ Color.GREEN ≠ Color.BLUE ∧
    (restrictedenum.getAt (restrictedenum.setAt (restrictedenum.setAt
        (fun _ => restrictedenum.mk Color.RED) 0 Color.GREEN) 1 Color.BLUE) 0).1 = Color.GREEN ∧
    (restrictedenum.getAt (restrictedenum.setAt (restrictedenum.setAt
        (fun _ => restrictedenum.mk Color.RED) 0 Color.GREEN) 1 Color.BLUE) 1).1 = Color.BLUE :=
  ⟨by decide, by decide,
   ((instances_independent 0 1 Color.GREEN Color.BLUE (by decide) (by decide)).1
      (fun _ => restrictedenum.mk Color.RED)).1.1,
   ((instances_independent 0 1 Color.GREEN Color.BLUE (by decide) (by decide)).1
      (fun _ => restrictedenum.mk Color.RED)).1.2.1⟩

/-! ## No validation, equivalence of the two classes, idempotence -/

/-- C6: `set` and `get` never fail and validate nothing, for both classes: for every type `t` and
every value `v`, `set(v)` stores `v` unmodified and a following `get()` returns exactly `v`; every
`get` call of every sequence of calls returns a value; and with `t` the underlying integer type of
an enumeration and `legal` its set of declared values, this holds for a value `v` outside `legal`
too. -/
theorem set_get_total_no_validation :
    (∀ (t : Type u) (v : t),
      (∀ h : restrictedenum t, (h.set v).eflag = v ∧ (h.set v).get.1 = v) ∧
      (∀ h : singleflagenum t, (h.set v).eflag = v ∧ (h.set v).get.1 = v)) ∧
    (∀ (t : Type u) (ops : List (Op t)),
      (∀ h : restrictedenum t, (restrictedenum.run ops h).1.length = countGets ops) ∧
      (∀ h : singleflagenum t, (singleflagenum.run ops h).1.length = countGets ops)) ∧
    (∀ (legal : Int → Bool) (v : Int), legal v = false →
      (∀ h : restrictedenum Int, (h.set v).eflag = v ∧ (h.set v).get.1 = v) ∧
      (∀ h : singleflagenum Int, (h.set v).eflag = v ∧ (h.set v).get.1 = v)) :=
  ⟨fun _ _ => ⟨fun _ => ⟨rfl, rfl⟩, fun _ => ⟨rfl, rfl⟩⟩,
   fun _ ops => ⟨restrictedenum_run_results_length ops, singleflagenum_run_results_length ops⟩,
   fun _ _ _ => ⟨fun _ => ⟨rfl, rfl⟩, fun _ => ⟨rfl, rfl⟩⟩⟩

/-- Witness of C6: the value `7`, which is not a declared value of `Color`, on a container
holding `1`. -/
theorem set_get_total_no_validation_witness :
    Color.legal 7 = false ∧
    ((restrictedenum.mk (1 : Int)).set 7).eflag = 7 ∧
    ((restrictedenum.mk (1 : Int)).set 7).get.1 = 7 :=
  ⟨by decide,
   ((set_get_total_no_validation.{0}.2.2 Color.legal 7 (by decide)).1 (restrictedenum.mk 1)).1,
   ((set_get_total_no_validation.{0}.2.2 Color.legal 7 (by decide)).1 (restrictedenum.mk 1)).2⟩

/-- C7: `restrictedenum<t>` and `singleflagenum<t>` are behaviourally equivalent: for every type
`t`, every initial stored value `s` and every finite sequence of `get` and `set` calls, running
the sequence on a `restrictedenum<t>` and on a `singleflagenum<t>` that both hold `s` yields the
same result for every `get()` and the same final stored value. -/
theorem classes_equivalent {t : Type u} (s : t) (ops : List (Op t)) :
    (restrictedenum.run ops (restrictedenum.mk s)).1
      = (singleflagenum.run ops (singleflagenum.mk s)).1 ∧
    (restrictedenum.run ops (restrictedenum.mk s)).2.eflag
      = (singleflagenum.run ops (singleflagenum.mk s)).2.eflag :=
  run_eq_of_eflag_eq ops (restrictedenum.mk s) (singleflagenum.mk s) rfl

/-- C8: `set` is idempotent, for both classes: for every container `h` and value `v`, `set(v)`
called twice in succession leaves the container in the same state as `set(v)` called once, and
`get()` afterwards returns the same value as after the first call, which is `v`. -/
theorem set_idempotent {t : Type u} (v : t) :
    (∀ h : restrictedenum t,
      (h.set v).set v = h.set v ∧
      ((h.set v).set v).get.1 = (h.set v).get.1 ∧
      ((h.set v).set v).get.1 = v) ∧
    (∀ h : singleflagenum t,
      (h.set v).set v = h.set v ∧
      ((h.set v).set v).get.1 = (h.set v).get.1 ∧
      ((h.set v).set v).get.1 = v) :=
  ⟨fun _ => ⟨rfl, rfl, rfl⟩, fun _ => ⟨rfl, rfl, rfl⟩⟩

/-! ## Genericity and the single slot -/

/-- C9: the behaviour of both classes is parametric in the stored type: for all types `T`, `U`
and every `f : T → U`, storing `f v` in a container over `U` and reading it back gives `f` of the
result of storing `v` in a container over `T` and reading it back, and more generally running a
sequence of calls renamed along `f` gives the results and the stored value renamed along `f`; and
the set-then-get, idempotence, overwrite and independence properties hold at every type, in
particular at the enumerations `Color` and `Switch` and at the integer type. -/
theorem behaviour_parametric {T U : Type u} (f : T → U) :
    ((∀ (v : T) (hT : restrictedenum T) (hU : restrictedenum U),
        (hU.set (f v)).get.1 = f (hT.set v).get.1) ∧
      (∀ (s : T) (ops : List (Op T)),
        restrictedenum.run (ops.map (Op.map f)) (restrictedenum.mk (f s))
          = ((restrictedenum.run ops (restrictedenum.mk s)).1.map f,
             restrictedenum.mk (f (restrictedenum.run ops (restrictedenum.mk s)).2.eflag)))) ∧
    ((∀ (v : T) (hT : singleflagenum T) (hU : singleflagenum U),
        (hU.set (f v)).get.1 = f (hT.set v).get.1) ∧
      (∀ (s : T) (ops : List (Op T)),
        singleflagenum.run (ops.map (Op.map f)) (singleflagenum.mk (f s))
          = ((singleflagenum.run ops (singleflagenum.mk s)).1.map f,
             singleflagenum.mk (f (singleflagenum.run ops (singleflagenum.mk s)).2.eflag)))) ∧
    (restrictedenum.Contract T ∧ restrictedenum.Contract U ∧
      singleflagenum.Contract T ∧ singleflagenum.Contract U) ∧
    (restrictedenum.Contract Color ∧ restrictedenum.Contract Switch ∧
      restrictedenum.Contract Int) ∧
    (singleflagenum.Contract Color ∧ singleflagenum.Contract Switch ∧
      singleflagenum.Contract Int) :=
  ⟨⟨fun _ _ _ => rfl, fun s ops => restrictedenum_run_map f ops s⟩,
   ⟨fun _ _ _ => rfl, fun s ops => singleflagenum_run_map f ops s⟩,
   ⟨restrictedenum_contract T, restrictedenum_contract U,
    singleflagenum_contract T, singleflagenum_contract U⟩,
   ⟨restrictedenum_contract Color, restrictedenum_contract Switch, restrictedenum_contract Int⟩,
   ⟨singleflagenum_contract Color, singleflagenum_contract Switch, singleflagenum_contract Int⟩⟩

/-- Witness of C9: `f = Color.toInt` from `Color` to the integer type, and the overwrite property
at `Switch` with `v1 = OFF`, `v2 = ON`. -/
theorem behaviour_parametric_witness :
    ((restrictedenum.mk (5 : Int)).set (Color.toInt Color.BLUE)).get.1
      = Color.toInt ((restrictedenum.mk Color.RED).set Color.BLUE).get.1 ∧
    Switch.OFF ≠ Switch.ON ∧
    (((restrictedenum.mk Switch.OFF).set Switch.OFF).set Switch.ON).get.1 = Switch.ON :=
  ⟨(behaviour_parametric Color.toInt).1.1 Color.BLUE (restrictedenum.mk Color.RED)
      (restrictedenum.mk 5),
   by decide,
   ((behaviour_parametric Color.toInt).2.2.2.1.2.1.2.2.1 (restrictedenum.mk Switch.OFF)
      Switch.OFF Switch.ON (by decide)).1⟩

/-- C10: single slot, for both classes: the container reached by any sequence of `get` and `set`
calls after an initial `set` holds exactly one value; two containers whose `get()` results are
equal are equal as states and return the same results, and end in the same state, under every
subsequent sequence of calls; the map from the state of a container to its `get()` result is a
bijection onto `t`. -/
theorem single_slot_invariant {t : Type u} :
    ((∀ (h0 : restrictedenum t) (v0 : t) (ops : List (Op t)),
        ∃! v : t, (restrictedenum.run ops (h0.set v0)).2 = restrictedenum.mk v) ∧
      (∀ h1 h2 : restrictedenum t, h1.get.1 = h2.get.1 →
        h1 = h2 ∧ ∀ ops : List (Op t), restrictedenum.run ops h1 = restrictedenum.run ops h2) ∧
      Function.Bijective (fun h : restrictedenum t => h.get.1)) ∧
    ((∀ (h0 : singleflagenum t) (v0 : t) (ops : List (Op t)),
        ∃! v : t, (singleflagenum.run ops (h0.set v0)).2 = singleflagenum.mk v) ∧
      (∀ h1 h2 : singleflagenum t, h1.get.1 = h2.get.1 →
        h1 = h2 ∧ ∀ ops : List (Op t), singleflagenum.run ops h1 = singleflagenum.run ops h2) ∧
      Function.Bijective (fun h : singleflagenum t => h.get.1)) := by
  refine ⟨⟨fun h0 v0 ops => ⟨(restrictedenum.run ops (h0.set v0)).2.eflag, rfl, ?_⟩,
      fun h1 h2 he => ?_, fun h1 h2 he => restrictedenum_ext_eflag h1 h2 he,
      fun v => ⟨restrictedenum.mk v, rfl⟩⟩,
    ⟨fun h0 v0 ops => ⟨(singleflagenum.run ops (h0.set v0)).2.eflag, rfl, ?_⟩,
      fun h1 h2 he => ?_, fun h1 h2 he => singleflagenum_ext_eflag h1 h2 he,
      fun v => ⟨singleflagenum.mk v, rfl⟩⟩⟩
  · intro v hv
    rw [hv]
  · have hh := restrictedenum_ext_eflag h1 h2 he
    exact ⟨hh, fun ops => by rw [hh]⟩
  · intro v hv
    rw [hv]
  · have hh := singleflagenum_ext_eflag h1 h2 he
    exact ⟨hh, fun ops => by rw [hh]⟩

/-- Witness of C10: a container constructed holding `GREEN` and a container that held `RED` and
was set to `GREEN`. -/
theorem single_slot_invariant_witness :
    (restrictedenum.mk Color.GREEN).get.1 = ((restrictedenum.mk Color.RED).set Color.GREEN).get.1 ∧
    restrictedenum.mk Color.GREEN = (restrictedenum.mk Color.RED).set Color.GREEN ∧
    restrictedenum.run [Op.get, Op.set Color.BLUE, Op.get] (restrictedenum.mk Color.GREEN)
      = restrictedenum.run [Op.get, Op.set Color.BLUE, Op.get]
          ((restrictedenum.mk Color.RED).set Color.GREEN) :=
  ⟨rfl,
   (single_slot_invariant.1.2.1 (restrictedenum.mk Color.GREEN)
      ((restrictedenum.mk Color.RED).set Color.GREEN) rfl).1,
   (single_slot_invariant.1.2.1 (restrictedenum.mk Color.GREEN)
      ((restrictedenum.mk Color.RED).set Color.GREEN) rfl).2 _⟩

/-! ## A set discards the prior state -/

/-- C11: `set` discards all prior state, for both classes: for any two containers in arbitrary
prior states and every value `v`, after `set(v)` on both the two containers are in equal states
and every later sequence of calls returns equal results on both and ends in equal states; and
`set(v2)` after `set(v1)` yields the same state as `set(v2)` alone. -/
theorem set_discards_prior_state {t : Type u} :
    ((∀ (h1 h2 : restrictedenum t) (v : t),
        h1.set v = h2.set v ∧
        ∀ ops : List (Op t),
          restrictedenum.run ops (h1.set v) = restrictedenum.run ops (h2.set v)) ∧
      (∀ (h : restrictedenum t) (v1 v2 : t), (h.set v1).set v2 = h.set v2)) ∧
    ((∀ (h1 h2 : singleflagenum t) (v : t),
        h1.set v = h2.set v ∧
        ∀ ops : List (Op t),
          singleflagenum.run ops (h1.set v) = singleflagenum.run ops (h2.set v)) ∧
      (∀ (h : singleflagenum t) (v1 v2 : t), (h.set v1).set v2 = h.set v2)) :=
  ⟨⟨fun _ _ _ => ⟨rfl, fun _ => rfl⟩, fun _ _ _ => rfl⟩,
   ⟨fun _ _ _ => ⟨rfl, fun _ => rfl⟩, fun _ _ _ => rfl⟩⟩

end RestrictedEnum
